import Mathlib

/-!
Shallow embedding of the spread-trading bot (`src/bot/src/index.ts`).

Prices, order sizes and leg quantities are JavaScript numbers in the
source; they are modelled as `ℚ`.  The `Signal` union type `-1 | 0 | 1`
is modelled as `Int` (the source's type system confines the value, and
every constructor below produces only `-1`, `0` or `1`).  Fallible
asynchronous calls (`fetch`, `placePerpOrder`) are modelled as `Except`
values supplied by an environment record: each field is the final
outcome of the corresponding awaited call (after its internal retries),
so a `Promise` rejection is `Except.error` and a resolution is
`Except.ok`.  The special float value `Infinity` used for
`estimatedSlippage` is modelled as `none : Option ℚ`.
-/

namespace SpreadBot

/-- Trading parameters from the top of `index.ts`. -/
def DRIFT_QUANTITY : ℚ := 10

/-- KMNO position size (`KMNO_QUANTITY = 100`). -/
def KMNO_QUANTITY : ℚ := 100

/-- Price ratio for the spread calculation (`PRICE_RATIO = 10` in the
source; renamed because of a lexical restriction on the all-caps name). -/
def priceRatio : ℚ := 10

/-- Signal lag periods (`SIGNAL_LAG_PERIODS = 2`). -/
def SIGNAL_LAG_PERIODS : Nat := 2

/-- `MAX_SLIPPAGE_BPS = 25`. -/
def MAX_SLIPPAGE_BPS : ℚ := 25

/-- `MAX_SLIPPAGE_BPS / 10000`, the decimal threshold used in `openPosition`. -/
def maxSlippageDecimal : ℚ := MAX_SLIPPAGE_BPS / 10000

/-- `MAX_RETRIES = 3`. -/
def MAX_RETRIES : Nat := 3

/-- `RETRY_DELAY_MS = 1000`. -/
def RETRY_DELAY_MS : Nat := 1000

/-- The ternary signal as the source computes it:
`const signal: Signal = spread < 0 ? 1 : spread > 0 ? -1 : 0` with
`spread = priceA - ratio * priceB` (index.ts lines 514-515; the same
expression appears in `src/unnamed/part_003` lines 566-567).  The ratio
is a parameter; the bot instantiates it with `priceRatio`. -/
def signalOf (priceA priceB ratio : ℚ) : Int :=
  let spread := priceA - ratio * priceB
  if spread < 0 then 1 else if spread > 0 then -1 else 0

/-- Sign of a rational leg quantity, used to state the position-state
invariant (`sign(legA) == signal` etc. in the spec's data model). -/
def legSign (x : ℚ) : Int :=
  if 0 < x then 1 else if x < 0 then -1 else 0

/-- One order-book level as consumed by `checkLiquidity`:
`{price, size}` after dividing out the fixed-point precisions. -/
structure Level where
  price : ℚ
  size : ℚ
deriving DecidableEq, Repr

/-- What `checkLiquidity` returns: `{canFill, estimatedSlippage}`,
with `none` standing for the source's `Infinity`. -/
structure LiquidityResult where
  canFill : Bool
  estimatedSlippage : Option ℚ
deriving DecidableEq, Repr

/-- Best book price as `checkLiquidity` computes it:
`orders.length > 0 ? parseFloat(orders[0].price)/QUOTE_PRECISION : 0`. -/
def bestPriceOf (levels : List Level) : ℚ :=
  match levels with
  | [] => 0
  | lv :: _ => lv.price

/-- The depth walk of `checkLiquidity` (index.ts lines 258-274):
starting from accumulated `totalSize`/`totalValue`, each level
contributes `fillSize = min(levelSize, orderSize - totalSize)`, and the
loop breaks as soon as `totalSize >= orderSize`.  Returns the final
`(totalSize, totalValue)`. -/
def walkBook (orderSize : ℚ) : List Level → ℚ → ℚ → ℚ × ℚ
  | [], totalSize, totalValue => (totalSize, totalValue)
  | lv :: rest, totalSize, totalValue =>
    let fillSize := min lv.size (orderSize - totalSize)
    let totalValue2 := totalValue + fillSize * lv.price
    let totalSize2 := totalSize + fillSize
    if totalSize2 ≥ orderSize then (totalSize2, totalValue2)
    else walkBook orderSize rest totalSize2 totalValue2

/-- `checkLiquidity` (index.ts lines 241-302) on an already-fetched
book side: walk the levels; if the book is exhausted before filling,
`{canFill: false, estimatedSlippage: Infinity}`; otherwise
`avgPrice = totalValue / totalSize` and the returned slippage is
`bestSlippage = |avgPrice - bestPrice| / bestPrice|` (the oracle-based
`slippage` is only logged, never returned). -/
def checkLiquidity (levels : List Level) (orderSize : ℚ) : LiquidityResult :=
  let bestPrice := bestPriceOf levels
  let w := walkBook orderSize levels 0 0
  if w.1 < orderSize then ⟨false, none⟩
  else ⟨true, some |(w.2 / w.1 - bestPrice) / bestPrice|⟩

/-- The internal `avgPrice = totalValue / totalSize` of `checkLiquidity`,
defined (`some`) exactly when the walk filled the requested size. -/
def avgFillPrice (levels : List Level) (orderSize : ℚ) : Option ℚ :=
  let w := walkBook orderSize levels 0 0
  if w.1 < orderSize then none else some (w.2 / w.1)

/-- `retryWithBackoff` (index.ts lines 58-72), unrolled over the attempt
counter.  `fn k` is the outcome of the wrapped operation on attempt `k`;
the second argument is how many further attempts remain after the current
one (`maxRetries - attempt`).  The returned list records, in order, the
delays slept between attempts: on a failure with attempts remaining the
source sleeps `RETRY_DELAY_MS * 2 ^ (attempt - 1)`; on a failure of the
final attempt it rethrows the caught error unmodified. -/
def retryFrom {ε α : Type} (fn : Nat → Except ε α) : Nat → Nat → Except ε α × List Nat
  | attempt, 0 => (fn attempt, [])
  | attempt, left + 1 =>
    match fn attempt with
    | Except.ok a => (Except.ok a, [])
    | Except.error _ =>
      let rest := retryFrom fn (attempt + 1) left
      (rest.1, RETRY_DELAY_MS * 2 ^ (attempt - 1) :: rest.2)

/-- The retry wrapper entered at attempt 1, as
`retryWithBackoff(fn, maxRetries)` runs its loop
`for (attempt = 1; attempt <= maxRetries; attempt++)`. -/
def retryWithBackoff {ε α : Type} (fn : Nat → Except ε α) (maxRetries : Nat) :
    Except ε α × List Nat :=
  retryFrom fn 1 (maxRetries - 1)

/-- The in-process position record `{drift, kmno, signal}` of the
source's `Position` type. -/
structure Position where
  drift : ℚ
  kmno : ℚ
  signal : Int
deriving DecidableEq, Repr

/-- `reconcilePositionState` (index.ts lines 75-114) after the venue
query has produced the two summed leg quantities: with any leg nonzero
the signal is `1` for `drift > 0 && kmno < 0`, `-1` for
`drift < 0 && kmno > 0`, and otherwise stays `0`, and
`currentPosition` is set to `{drift, kmno, signal}`; with both legs zero
`currentPosition` is cleared to `null`. -/
def reconcilePositionState (drift kmno : ℚ) : Option Position :=
  if drift ≠ 0 ∨ kmno ≠ 0 then
    let signal : Int :=
      if drift > 0 ∧ kmno < 0 then 1
      else if drift < 0 ∧ kmno > 0 then -1
      else 0
    some ⟨drift, kmno, signal⟩
  else none

/-- The spec's PositionState invariant over the nullable ledger:
`signal == 0 ⇔ legA.quantity == 0 && legB.quantity == 0`, and for a
nonzero signal `sign(legA) == signal` and `sign(legB) == -signal`
(a Flat ledger is `none`). -/
def positionStateInvariant (op : Option Position) : Prop :=
  match op with
  | none => True
  | some q =>
    (q.signal = 0 ↔ q.drift = 0 ∧ q.kmno = 0) ∧
    (q.signal ≠ 0 → legSign q.drift = q.signal ∧ legSign q.kmno = -q.signal)

instance (op : Option Position) : Decidable (positionStateInvariant op) := by
  unfold positionStateInvariant
  match op with
  | none => exact inferInstanceAs (Decidable True)
  | some q => exact inferInstanceAs (Decidable (_ ∧ _))

/-- The two perp markets the bot trades. -/
inductive Market
  | DRIFT
  | KMNO
deriving DecidableEq, Repr

/-- `PositionDirection.LONG` / `PositionDirection.SHORT`. -/
inductive Direction
  | long
  | short
deriving DecidableEq, Repr

/-- One call to `placeOrder(market, direction, quantity, reduceOnly)`. -/
structure Order where
  market : Market
  direction : Direction
  quantity : ℚ
  reduceOnly : Bool
deriving DecidableEq, Repr

/-- The outcomes of the bot's awaited I/O during one cycle, each already
the final result of its own retry wrapper: the two candle fetches, the
two open-side liquidity checks (`checkLiquidity` never throws: its catch
returns `{canFill: false, estimatedSlippage: Infinity}`), and the four
possible `placeOrder` calls. -/
structure CycleEnv where
  driftCandles : Except String (List ℚ)
  kmnoCandles : Except String (List ℚ)
  driftOpenLiq : LiquidityResult
  kmnoOpenLiq : LiquidityResult
  driftOpen : Except String Unit
  kmnoOpen : Except String Unit
  driftClose : Except String Unit
  kmnoClose : Except String Unit

/-- The comparison `estimatedSlippage > maxSlippageDecimal` with the
source's `Infinity` (`none`) exceeding every threshold. -/
def slippageExceeds (s : Option ℚ) (threshold : ℚ) : Bool :=
  match s with
  | none => true
  | some v => threshold < v

/-- What a position-changing step leaves behind: the new value of the
global `currentPosition`, the orders submitted (in submission order),
and whether the awaited step resolved or rejected. -/
structure StepResult where
  pos : Option Position
  orders : List Order
  result : Except String Unit
deriving Repr

/-- `openPosition(signal)` (index.ts lines 359-425).  A zero signal
returns at once.  Otherwise the two liquidity snapshots are validated:
`canFill = false` only logs a warning, but a slippage above
`maxSlippageDecimal` (which includes the `Infinity` of an unfillable
book) throws before any order is submitted.  Then both legs are placed
via `Promise.all`; only when both confirm is `currentPosition` set to
`{drift: signal*DRIFT_QUANTITY, kmno: -signal*KMNO_QUANTITY, signal}`,
and a rejected leg leaves it untouched and rethrows. -/
def openPosition (env : CycleEnv) (pos : Option Position) (signal : Int) : StepResult :=
  if signal = 0 then ⟨pos, [], Except.ok ()⟩
  else
    let driftDirection := if signal > 0 then Direction.long else Direction.short
    let kmnoDirection := if signal > 0 then Direction.short else Direction.long
    if slippageExceeds env.driftOpenLiq.estimatedSlippage maxSlippageDecimal then
      ⟨pos, [], Except.error "DRIFT slippage too high"⟩
    else if slippageExceeds env.kmnoOpenLiq.estimatedSlippage maxSlippageDecimal then
      ⟨pos, [], Except.error "KMNO slippage too high"⟩
    else
      let orders : List Order :=
        [⟨Market.DRIFT, driftDirection, DRIFT_QUANTITY, false⟩,
         ⟨Market.KMNO, kmnoDirection, KMNO_QUANTITY, false⟩]
      match env.driftOpen with
      | Except.error e => ⟨pos, orders, Except.error e⟩
      | Except.ok _ =>
        match env.kmnoOpen with
        | Except.error e => ⟨pos, orders, Except.error e⟩
        | Except.ok _ =>
          ⟨some ⟨(signal : ℚ) * DRIFT_QUANTITY, -(signal : ℚ) * KMNO_QUANTITY, signal⟩,
           orders, Except.ok ()⟩

/-- `closePosition()` (index.ts lines 428-482).  A `null` position
returns at once.  Otherwise a reduce-only order opposite to each nonzero
leg is submitted, both in flight together via `Promise.all`; only when
every submitted leg confirms is `currentPosition` cleared to `null`, and
a rejected leg leaves it untouched and rethrows. -/
def closePosition (env : CycleEnv) (pos : Option Position) : StepResult :=
  match pos with
  | none => ⟨none, [], Except.ok ()⟩
  | some p =>
    let driftOrders : List Order :=
      if p.drift ≠ 0 then
        [⟨Market.DRIFT, if p.drift > 0 then Direction.short else Direction.long,
          |p.drift|, true⟩]
      else []
    let kmnoOrders : List Order :=
      if p.kmno ≠ 0 then
        [⟨Market.KMNO, if p.kmno > 0 then Direction.short else Direction.long,
          |p.kmno|, true⟩]
      else []
    let driftRes := if p.drift ≠ 0 then env.driftClose else Except.ok ()
    let kmnoRes := if p.kmno ≠ 0 then env.kmnoClose else Except.ok ()
    match driftRes with
    | Except.error e => ⟨some p, driftOrders ++ kmnoOrders, Except.error e⟩
    | Except.ok _ =>
      match kmnoRes with
      | Except.error e => ⟨some p, driftOrders ++ kmnoOrders, Except.error e⟩
      | Except.ok _ => ⟨none, driftOrders ++ kmnoOrders, Except.ok ()⟩

/-- The trading branch of `executeTradingCycle` (index.ts lines 526-535):
with no position and a nonzero signal, open; with a position whose signal
differs from the new one, `await closePosition()` and only then, when the
close resolved and the new signal is nonzero, `await openPosition(signal)`;
otherwise hold.  A rejection is caught by the cycle's own catch, so it is
recorded in `result` and the position is whatever the failed step left. -/
def tradingStep (env : CycleEnv) (pos : Option Position) (signal : Int) : StepResult :=
  match pos with
  | none =>
    if signal ≠ 0 then openPosition env none signal
    else ⟨none, [], Except.ok ()⟩
  | some p =>
    if p.signal ≠ signal then
      let c := closePosition env (some p)
      match c.result with
      | Except.error e => ⟨c.pos, c.orders, Except.error e⟩
      | Except.ok _ =>
        if signal ≠ 0 then
          let o := openPosition env c.pos signal
          ⟨o.pos, c.orders ++ o.orders, o.result⟩
        else ⟨c.pos, c.orders, Except.ok ()⟩
    else ⟨some p, [], Except.ok ()⟩

/-- The mutable globals the cycle touches: `isCycleRunning`,
`currentPosition` and `cycleCount`. -/
structure BotState where
  isCycleRunning : Bool
  currentPosition : Option Position
  cycleCount : Nat
deriving DecidableEq, Repr

/-- The cycle's observable log events that the claims refer to. -/
inductive CycleEvent
  | skipped
  | started
  | insufficientData
  | cycleError
deriving DecidableEq, Repr

/-- One invocation's outcome: the state it leaves, the orders it
submitted and the events it logged. -/
structure CycleOutcome where
  state : BotState
  orders : List Order
  events : List CycleEvent
deriving Repr

/-- The signal computation of `executeTradingCycle` (index.ts lines
507-515) from the two fetched candle lists: `none` when either list is
shorter than `SIGNAL_LAG_PERIODS + 1` (the cycle aborts with a warning),
otherwise the signal of the prices at index `SIGNAL_LAG_PERIODS`
(`driftCandles[SIGNAL_LAG_PERIODS]!.oracleClose`). -/
def cycleSignalOf (driftCandles kmnoCandles : List ℚ) : Option Int :=
  if driftCandles.length < SIGNAL_LAG_PERIODS + 1 ∨
      kmnoCandles.length < SIGNAL_LAG_PERIODS + 1 then none
  else
    some (signalOf (driftCandles.getD SIGNAL_LAG_PERIODS 0)
      (kmnoCandles.getD SIGNAL_LAG_PERIODS 0) priceRatio)

/-- `executeTradingCycle` (index.ts lines 485-549).  If a cycle is
already running the invocation logs a skip and returns with nothing
changed.  Otherwise `cycleCount` is incremented, the candles are
fetched (a rejected fetch is caught by the cycle's catch), the history
length is validated, the signal computed, and the trading branch run;
the `finally` clears `isCycleRunning` in every non-skip path. -/
def executeTradingCycle (env : CycleEnv) (s : BotState) : CycleOutcome :=
  if s.isCycleRunning then ⟨s, [], [CycleEvent.skipped]⟩
  else
    let c := s.cycleCount + 1
    match env.driftCandles, env.kmnoCandles with
    | Except.ok driftCandles, Except.ok kmnoCandles =>
      if driftCandles.length < SIGNAL_LAG_PERIODS + 1 ∨
          kmnoCandles.length < SIGNAL_LAG_PERIODS + 1 then
        ⟨⟨false, s.currentPosition, c⟩, [],
         [CycleEvent.started, CycleEvent.insufficientData]⟩
      else
        let driftPrice := driftCandles.getD SIGNAL_LAG_PERIODS 0
        let kmnoPrice := kmnoCandles.getD SIGNAL_LAG_PERIODS 0
        let signal := signalOf driftPrice kmnoPrice priceRatio
        let step := tradingStep env s.currentPosition signal
        ⟨⟨false, step.pos, c⟩, step.orders,
         match step.result with
         | Except.ok _ => [CycleEvent.started]
         | Except.error _ => [CycleEvent.started, CycleEvent.cycleError]⟩
    | _, _ => ⟨⟨false, s.currentPosition, c⟩, [],
        [CycleEvent.started, CycleEvent.cycleError]⟩

/-- The position `openPosition` records on success for a given signal. -/
def openedPosition (signal : Int) : Position :=
  ⟨(signal : ℚ) * DRIFT_QUANTITY, -(signal : ℚ) * KMNO_QUANTITY, signal⟩

/-- The depth walk never accumulates past the requested size: from any
accumulated size below `orderSize` the result stays at or below it. -/
theorem walkBook_fst_le (orderSize : ℚ) :
    ∀ (levels : List Level) (acc value : ℚ), acc ≤ orderSize →
      (walkBook orderSize levels acc value).1 ≤ orderSize := by
  intro levels
  induction levels with
  | nil => intro acc value h; simpa [walkBook] using h
  | cons lv rest ih =>
    intro acc value h
    have hstep : acc + min lv.size (orderSize - acc) ≤ orderSize := by
      have hmin := min_le_right lv.size (orderSize - acc)
      linarith
    simp only [walkBook]
    split_ifs with hge
    · exact hstep
    · exact ih _ _ hstep

/-- When `checkLiquidity` reports `canFill`, the walk met the requested
size, hence (with the upper bound) filled it exactly. -/
theorem walkBook_fill_exact (levels : List Level) (orderSize : ℚ)
    (h0 : (0 : ℚ) ≤ orderSize)
    (hcan : (checkLiquidity levels orderSize).canFill = true) :
    (walkBook orderSize levels 0 0).1 = orderSize := by
  have hle := walkBook_fst_le orderSize levels 0 0 h0
  by_cases hlt : (walkBook orderSize levels 0 0).1 < orderSize
  · exfalso
    simp [checkLiquidity, hlt] at hcan
  · linarith [not_lt.mp hlt]

/-- C5: for all inputs `priceA`, `priceB`, `ratio`, the signal
computation is the pure function with `spread = priceA - ratio * priceB`,
returning `+1` iff `spread < 0`, `-1` iff `spread > 0`, and `0` iff the
spread is exactly zero. -/
theorem claim_signal_sign_contract (priceA priceB ratio : ℚ) :
    (signalOf priceA priceB ratio = 1 ↔ priceA - ratio * priceB < 0) ∧
    (signalOf priceA priceB ratio = -1 ↔ 0 < priceA - ratio * priceB) ∧
    (signalOf priceA priceB ratio = 0 ↔ priceA - ratio * priceB = 0) := by
  rcases lt_trichotomy (priceA - ratio * priceB) 0 with h | h | h
  · simp [signalOf, h, asymm h, h.ne]
  · simp [signalOf, h]
  · simp [signalOf, h, asymm h, h.ne', not_lt_of_gt h]

/-- C4 (code evaluation at the failing input): with the gateway contract
of bars ordered oldest to newest and `SIGNAL_LAG_PERIODS + 1 = 3` bars
returned, the bar `L` periods old is the head of the list (DRIFT price
`5`, whose signal against KMNO price `1` is `+1`), but the cycle indexes
`candles[SIGNAL_LAG_PERIODS]`, the most recent bar (DRIFT price `15`),
and computes `-1`: the freshest bar, not the lagged one, decides. -/
theorem claim_lagged_bar_code_eval :
    cycleSignalOf [5, 15, 15] [1, 1, 1] = some (-1) ∧
    signalOf ([5, 15, 15].getD 0 0) ([1, 1, 1].getD 0 0) priceRatio = 1 ∧
    ([(5 : ℚ), 15, 15].getD SIGNAL_LAG_PERIODS 0) = 15 := by
  refine ⟨?_, ?_, by norm_num [SIGNAL_LAG_PERIODS]⟩
  · norm_num [cycleSignalOf, signalOf, priceRatio, SIGNAL_LAG_PERIODS]
  · norm_num [signalOf, priceRatio]

/-- C8 counterexample: venue legs `{A:+10, B:+100}` (same sign) are not
surfaced as an anomaly: `reconcilePositionState` silently records the
legs with the coerced signal `0` and the bot keeps running. -/
theorem claim_reconcile_anomaly_cex :
    reconcilePositionState 10 100 = some ⟨10, 100, 0⟩ := by
  norm_num [reconcilePositionState]

/-- C8 amended: `{A:+10, B:-100}` yields signal `+1` and `{A:0, B:0}`
yields a Flat (null) ledger, but any other nonzero combination is not
an anomaly: it is silently mapped to a position carrying the venue legs
with signal `0`, with no halt and no force-flatten. -/
theorem claim_reconcile_amended :
    reconcilePositionState 10 (-100) = some ⟨10, -100, 1⟩ ∧
    reconcilePositionState 0 0 = none ∧
    ∀ (drift kmno : ℚ), (drift ≠ 0 ∨ kmno ≠ 0) →
      ¬(drift > 0 ∧ kmno < 0) → ¬(drift < 0 ∧ kmno > 0) →
      reconcilePositionState drift kmno = some ⟨drift, kmno, 0⟩ := by
  refine ⟨by norm_num [reconcilePositionState], by norm_num [reconcilePositionState], ?_⟩
  intro drift kmno hne h1 h2
  simp only [reconcilePositionState, if_pos hne, h1, h2, if_false]

/-- C8 amended, witnessed at the single-nonzero-leg combination
`{A:5, B:7}`: reconciliation maps it to signal `0` instead of halting. -/
theorem claim_reconcile_amended_w :
    reconcilePositionState 5 7 = some ⟨5, 7, 0⟩ :=
  claim_reconcile_amended.2.2 5 7 (by norm_num) (by norm_num) (by norm_num)

/-- C9 counterexample: reconciliation writes the ledger
`{drift: 10, kmno: 100, signal: 0}`, which has signal `0` with nonzero
legs — the PositionState invariant does not survive this write. -/
theorem claim_invariant_violation_cex :
    ¬ positionStateInvariant (reconcilePositionState 10 100) := by
  norm_num [reconcilePositionState, positionStateInvariant]

/-- Case analysis on what `openPosition` leaves in the ledger: either
the ledger is untouched (early return, slippage rejection or a failed
leg) or the signal was nonzero and both legs confirmed, in which case
the ledger holds `openedPosition signal`. -/
theorem openPosition_pos_cases (env : CycleEnv) (pos : Option Position) (signal : Int) :
    (openPosition env pos signal).pos = pos ∨
    (signal ≠ 0 ∧ (openPosition env pos signal).pos = some (openedPosition signal)) := by
  by_cases hs : signal = 0
  · left; simp [openPosition, hs]
  · simp only [openPosition, if_neg hs]
    by_cases h1 : slippageExceeds env.driftOpenLiq.estimatedSlippage maxSlippageDecimal = true
    · left; simp [h1]
    · by_cases h2 : slippageExceeds env.kmnoOpenLiq.estimatedSlippage maxSlippageDecimal = true
      · left; simp [h1, h2]
      · rcases hd : env.driftOpen with e | u
        · left; simp [h1, h2, hd]
        · rcases hk : env.kmnoOpen with e2 | u2
          · left; simp [h1, h2, hd, hk]
          · right
            refine ⟨hs, ?_⟩
            simp [h1, h2, hd, hk, openedPosition]

/-- Case analysis on what `closePosition` leaves in the ledger: the old
value (no position, or a rejected leg) or `null` (every submitted leg
confirmed). -/
theorem closePosition_pos_cases (env : CycleEnv) (pos : Option Position) :
    (closePosition env pos).pos = pos ∨ (closePosition env pos).pos = none := by
  match pos with
  | none => left; rfl
  | some p =>
    simp only [closePosition]
    split
    · left; rfl
    · split
      · left; rfl
      · right; rfl

/-- The ledger state `openPosition` writes on success satisfies the
PositionState invariant for the two signals the bot can open with. -/
theorem openedPosition_invariant (s : Int) (hs : s = 1 ∨ s = -1) :
    positionStateInvariant (some (openedPosition s)) := by
  rcases hs with rfl | rfl <;>
    norm_num [openedPosition, positionStateInvariant, legSign,
      DRIFT_QUANTITY, KMNO_QUANTITY]

/-- C9 amended: the open and close writes preserve the PositionState
invariant, and reconciliation preserves it exactly on flat or properly
opposite-signed venue legs; on any other combination (the C9
counterexample) it writes signal `0` with nonzero legs and breaks it. -/
theorem claim_ledger_invariant_amended :
    (∀ (env : CycleEnv) (pos : Option Position) (signal : Int),
      positionStateInvariant pos → (signal = 1 ∨ signal = 0 ∨ signal = -1) →
      positionStateInvariant (openPosition env pos signal).pos) ∧
    (∀ (env : CycleEnv) (pos : Option Position),
      positionStateInvariant pos →
      positionStateInvariant (closePosition env pos).pos) ∧
    (∀ (drift kmno : ℚ),
      (drift = 0 ∧ kmno = 0) ∨ (0 < drift ∧ kmno < 0) ∨ (drift < 0 ∧ 0 < kmno) →
      positionStateInvariant (reconcilePositionState drift kmno)) := by
  refine ⟨?_, ?_, ?_⟩
  · intro env pos signal hinv hs
    rcases openPosition_pos_cases env pos signal with h | ⟨hs0, h⟩
    · rw [h]; exact hinv
    · rw [h]
      rcases hs with rfl | rfl | rfl
      · exact openedPosition_invariant 1 (Or.inl rfl)
      · exact absurd rfl hs0
      · exact openedPosition_invariant (-1) (Or.inr rfl)
  · intro env pos hinv
    rcases closePosition_pos_cases env pos with h | h
    · rw [h]; exact hinv
    · rw [h]; trivial
  · intro drift kmno h
    rcases h with ⟨rfl, rfl⟩ | ⟨h1, h2⟩ | ⟨h1, h2⟩
    · simp [reconcilePositionState, positionStateInvariant]
    · simp [reconcilePositionState, positionStateInvariant, legSign,
        h1, h2, h1.ne', h2.ne, asymm h1, asymm h2]
    · simp [reconcilePositionState, positionStateInvariant, legSign,
        h1, h2, h1.ne, h2.ne', asymm h1, asymm h2]

/-- C9 amended, witnessed: a confirmed open of a long spread writes an
invariant-satisfying ledger. -/
theorem claim_ledger_invariant_amended_w :
    positionStateInvariant
      (openPosition
        ⟨Except.ok [], Except.ok [], ⟨true, some 0⟩, ⟨true, some 0⟩,
         Except.ok (), Except.ok (), Except.ok (), Except.ok ()⟩
        none 1).pos :=
  claim_ledger_invariant_amended.1 _ none 1 trivial (Or.inl rfl)

/-- C10: the depth walk's accumulated fill size never exceeds the
requested size at any step — each level contributes
`min(levelSize, requiredSize - accumulated)`, which can never push the
accumulator past `requiredSize` — and whenever the check reports
`canFill` the accumulated size equals `requiredSize` exactly, so the
average fill price is the volume-weighted price of precisely
`requiredSize` units. -/
theorem claim_fill_never_exceeds :
    (∀ (lv : Level) (orderSize acc : ℚ), acc ≤ orderSize →
      acc + min lv.size (orderSize - acc) ≤ orderSize) ∧
    (∀ (levels : List Level) (orderSize acc value : ℚ), acc ≤ orderSize →
      (walkBook orderSize levels acc value).1 ≤ orderSize) ∧
    (∀ (levels : List Level) (orderSize : ℚ), 0 < orderSize →
      (checkLiquidity levels orderSize).canFill = true →
      (walkBook orderSize levels 0 0).1 = orderSize ∧
      avgFillPrice levels orderSize =
        some ((walkBook orderSize levels 0 0).2 / orderSize)) := by
  refine ⟨?_, ?_, ?_⟩
  · intro lv orderSize acc h
    have hmin := min_le_right lv.size (orderSize - acc)
    linarith
  · intro levels orderSize acc value h
    exact walkBook_fst_le orderSize levels acc value h
  · intro levels orderSize h0 hcan
    have hfill := walkBook_fill_exact levels orderSize h0.le hcan
    exact ⟨hfill, by simp only [avgFillPrice, hfill, lt_self_iff_false, if_false]⟩

/-- C10, witnessed on the spec's example book at `requiredSize = 8`:
the walk fills exactly 8 units. -/
theorem claim_fill_never_exceeds_w :
    (walkBook 8 [⟨1, 5⟩, ⟨101/100, 5⟩] 0 0).1 = 8 :=
  (claim_fill_never_exceeds.2.2 [⟨1, 5⟩, ⟨101/100, 5⟩] 8 (by norm_num)
    (by norm_num [checkLiquidity, walkBook, bestPriceOf])).1

/-- C6: the liquidity check walks the levels in order accumulating size
and notional until the requested size is met or the book is exhausted;
exhaustion yields `canFill = false` with infinite (`none`) slippage,
and otherwise `canFill = true` with
`averageFillPrice = notional / filledSize` and
`estimatedSlippage = |averageFillPrice - bestPrice| / bestPrice`.
In particular, on the book `[{price:1.00, size:5}, {price:1.01, size:5}]`
a required size of `12` cannot fill, and a required size of `8` has
average fill price `1.00375 = 803/800`. -/
theorem claim_liquidity_walk_contract :
    (∀ (levels : List Level) (orderSize : ℚ),
      ((walkBook orderSize levels 0 0).1 < orderSize →
        checkLiquidity levels orderSize = ⟨false, none⟩) ∧
      (¬ (walkBook orderSize levels 0 0).1 < orderSize → 0 < bestPriceOf levels →
        checkLiquidity levels orderSize =
          ⟨true, some (|(walkBook orderSize levels 0 0).2 /
              (walkBook orderSize levels 0 0).1 - bestPriceOf levels| /
            bestPriceOf levels)⟩ ∧
        avgFillPrice levels orderSize =
          some ((walkBook orderSize levels 0 0).2 /
            (walkBook orderSize levels 0 0).1))) ∧
    checkLiquidity [⟨1, 5⟩, ⟨101/100, 5⟩] 12 = ⟨false, none⟩ ∧
    avgFillPrice [⟨1, 5⟩, ⟨101/100, 5⟩] 8 = some (803/800) := by
  refine ⟨?_, by norm_num [checkLiquidity, walkBook, bestPriceOf],
    by norm_num [avgFillPrice, walkBook]⟩
  intro levels orderSize
  constructor
  · intro hlt
    simp [checkLiquidity, hlt]
  · intro hnlt hbest
    constructor
    · simp only [checkLiquidity, if_neg hnlt]
      rw [abs_div, abs_of_pos hbest]
    · simp only [avgFillPrice, if_neg hnlt]

/-- C6, witnessed on the spec's example book at `requiredSize = 12`: the
walk stops at ten accumulated units, so the check reports unfillable. -/
theorem claim_liquidity_walk_contract_w :
    checkLiquidity [⟨1, 5⟩, ⟨101/100, 5⟩] 12 = ⟨false, none⟩ :=
  (claim_liquidity_walk_contract.1 [⟨1, 5⟩, ⟨101/100, 5⟩] 12).1
    (by norm_num [walkBook])

/-- C7: wrapped in the retry unit with `maxAttempts = 3`,
`baseDelay = 1000` and multiplier `2`, a failure on an attempt with
attempts remaining is followed by a sleep of `1000 * 2 ^ (attempt - 1)`
before the retry, failures on attempts 1 and 2 sleep `1000` then `2000`,
a success on attempt 3 returns the attempt-3 result, and a failure on the
final attempt propagates the attempt-3 error to the caller unmodified. -/
theorem claim_retry_backoff_contract {ε α : Type} (fn : Nat → Except ε α) (e1 e2 : ε)
    (h1 : fn 1 = Except.error e1) (h2 : fn 2 = Except.error e2) :
    (∀ a, fn 3 = Except.ok a →
      retryWithBackoff fn MAX_RETRIES = (Except.ok a, [1000, 2000])) ∧
    (∀ e3, fn 3 = Except.error e3 →
      retryWithBackoff fn MAX_RETRIES = (Except.error e3, [1000, 2000])) ∧
    (∀ (k left : Nat) (e : ε), fn k = Except.error e →
      (retryFrom fn k (left + 1)).2 =
        RETRY_DELAY_MS * 2 ^ (k - 1) :: (retryFrom fn (k + 1) left).2) := by
  refine ⟨?_, ?_, ?_⟩
  · intro a h3
    norm_num [retryWithBackoff, MAX_RETRIES, retryFrom, h1, h2, h3, RETRY_DELAY_MS]
  · intro e3 h3
    norm_num [retryWithBackoff, MAX_RETRIES, retryFrom, h1, h2, h3, RETRY_DELAY_MS]
  · intro k left e he
    simp [retryFrom, he]

/-- C7, witnessed on an operation failing on attempts 1 and 2 and
succeeding on attempt 3: the attempt-3 result is returned after sleeps
of 1000 then 2000 milliseconds. -/
theorem claim_retry_backoff_contract_w :
    retryWithBackoff (fun n => if n < 3 then Except.error n else Except.ok 7) MAX_RETRIES
      = (Except.ok 7, [1000, 2000]) :=
  (claim_retry_backoff_contract (fun n => if n < 3 then Except.error n else Except.ok 7)
    1 2 rfl rfl).1 7 rfl

/-- C3: a cycle invocation that finds `isCycleRunning` set logs the skip
and returns at once: the state (ledger, `cycleCount`, the flag itself) is
exactly what it was, no order is submitted, and the only event is the
skip — so a second cycle body never runs alongside the first. -/
theorem claim_single_flight_skip (env : CycleEnv) (s : BotState)
    (h : s.isCycleRunning = true) :
    executeTradingCycle env s = ⟨s, [], [CycleEvent.skipped]⟩ := by
  simp [executeTradingCycle, h]

/-- C3, witnessed at a concrete busy state and environment. -/
theorem claim_single_flight_skip_w :
    executeTradingCycle
      ⟨Except.ok [], Except.ok [], ⟨false, none⟩, ⟨false, none⟩,
       Except.ok (), Except.ok (), Except.ok (), Except.ok ()⟩
      ⟨true, none, 0⟩
      = ⟨⟨true, none, 0⟩, [], [CycleEvent.skipped]⟩ :=
  claim_single_flight_skip _ _ rfl

/-- The two reduce-only orders `closePosition` submits for a position
with two nonzero legs. -/
def closeOrdersOf (p : Position) : List Order :=
  [⟨Market.DRIFT, if p.drift > 0 then Direction.short else Direction.long, |p.drift|, true⟩,
   ⟨Market.KMNO, if p.kmno > 0 then Direction.short else Direction.long, |p.kmno|, true⟩]

/-- Every order `closePosition` builds is reduce-only. -/
theorem closeOrdersOf_reduceOnly (p : Position) :
    ∀ o ∈ closeOrdersOf p, o.reduceOnly = true := by
  intro o ho
  rcases List.mem_cons.mp ho with rfl | ho2
  · rfl
  · rcases List.mem_singleton.mp ho2 with rfl
    rfl

/-- Closing a two-leg position when the DRIFT leg's retries exhaust:
the ledger value is untouched and the rejection propagates. -/
theorem closePosition_driftFail (env : CycleEnv) (p : Position)
    (hdl : p.drift ≠ 0) (hkl : p.kmno ≠ 0) (e : String)
    (hd : env.driftClose = Except.error e) :
    closePosition env (some p) = ⟨some p, closeOrdersOf p, Except.error e⟩ := by
  simp [closePosition, hdl, hkl, hd, closeOrdersOf]

/-- Closing a two-leg position when the DRIFT leg confirms but the KMNO
leg's retries exhaust: the ledger value is untouched and the rejection
propagates. -/
theorem closePosition_kmnoFail (env : CycleEnv) (p : Position)
    (hdl : p.drift ≠ 0) (hkl : p.kmno ≠ 0) (e : String) (u : Unit)
    (hd : env.driftClose = Except.ok u) (hk : env.kmnoClose = Except.error e) :
    closePosition env (some p) = ⟨some p, closeOrdersOf p, Except.error e⟩ := by
  simp [closePosition, hdl, hkl, hd, hk, closeOrdersOf]

/-- Closing a two-leg position when both legs confirm: the ledger is
cleared to `null`. -/
theorem closePosition_bothOk (env : CycleEnv) (p : Position)
    (hdl : p.drift ≠ 0) (hkl : p.kmno ≠ 0) (u v : Unit)
    (hd : env.driftClose = Except.ok u) (hk : env.kmnoClose = Except.ok v) :
    closePosition env (some p) = ⟨none, closeOrdersOf p, Except.ok ()⟩ := by
  simp [closePosition, hdl, hkl, hd, hk, closeOrdersOf]

/-- On a non-skipped cycle with valid candle data, the resulting ledger
and order trace are those of the trading branch on the signal computed
from the bars at index `SIGNAL_LAG_PERIODS`. -/
theorem cycle_run_eq (env : CycleEnv) (s : BotState) (dc kc : List ℚ)
    (hrun : s.isCycleRunning = false)
    (hdc : env.driftCandles = Except.ok dc) (hkc : env.kmnoCandles = Except.ok kc)
    (hlen : ¬(dc.length < SIGNAL_LAG_PERIODS + 1 ∨ kc.length < SIGNAL_LAG_PERIODS + 1)) :
    (executeTradingCycle env s).state.currentPosition =
      (tradingStep env s.currentPosition
        (signalOf (dc.getD SIGNAL_LAG_PERIODS 0) (kc.getD SIGNAL_LAG_PERIODS 0)
          priceRatio)).pos ∧
    (executeTradingCycle env s).orders =
      (tradingStep env s.currentPosition
        (signalOf (dc.getD SIGNAL_LAG_PERIODS 0) (kc.getD SIGNAL_LAG_PERIODS 0)
          priceRatio)).orders := by
  constructor <;> simp [executeTradingCycle, hrun, hdc, hkc, hlen]

/-- C1: in a direction change whose close step has one leg confirm and
the other exhaust its retries, the cycle leaves the ledger exactly as it
last confirmed (the pre-close position) and submits no opening order:
every order of the cycle is reduce-only, so the open step for the new
signal is never attempted. -/
theorem claim_partial_leg_close_keeps_ledger (env : CycleEnv) (s : BotState)
    (p : Position) (dc kc : List ℚ)
    (hrun : s.isCycleRunning = false)
    (hpos : s.currentPosition = some p)
    (hdl : p.drift ≠ 0) (hkl : p.kmno ≠ 0)
    (hdc : env.driftCandles = Except.ok dc) (hkc : env.kmnoCandles = Except.ok kc)
    (hlen : ¬(dc.length < SIGNAL_LAG_PERIODS + 1 ∨ kc.length < SIGNAL_LAG_PERIODS + 1))
    (hflip : p.signal ≠ signalOf (dc.getD SIGNAL_LAG_PERIODS 0)
      (kc.getD SIGNAL_LAG_PERIODS 0) priceRatio)
    (hone : (env.driftClose = Except.ok () ∧ ∃ e, env.kmnoClose = Except.error e) ∨
            (env.kmnoClose = Except.ok () ∧ ∃ e, env.driftClose = Except.error e)) :
    (executeTradingCycle env s).state.currentPosition = some p ∧
    ∀ o ∈ (executeTradingCycle env s).orders, o.reduceOnly = true := by
  obtain ⟨hp2, ho2⟩ := cycle_run_eq env s dc kc hrun hdc hkc hlen
  rw [hpos] at hp2 ho2
  rcases hone with ⟨hd, e, hk⟩ | ⟨hk, e, hd⟩
  · have hc := closePosition_kmnoFail env p hdl hkl e () hd hk
    rw [hp2, ho2]
    simp only [tradingStep, if_pos hflip, hc]
    exact ⟨trivial, closeOrdersOf_reduceOnly p⟩
  · have hc := closePosition_driftFail env p hdl hkl e hd
    rw [hp2, ho2]
    simp only [tradingStep, if_pos hflip, hc]
    exact ⟨trivial, closeOrdersOf_reduceOnly p⟩

/-- A cycle environment in which the candles flip the signal to `-1`,
the DRIFT close leg confirms and the KMNO close leg rejects after its
retries. -/
def envPartial : CycleEnv :=
  ⟨Except.ok [0, 0, 15], Except.ok [0, 0, 1], ⟨false, none⟩, ⟨false, none⟩,
   Except.ok (), Except.ok (), Except.ok (), Except.error "close leg failed"⟩

/-- C1, witnessed: holding the long spread `{drift: 10, kmno: -100}`
with the new signal flipping to `-1`, the DRIFT close leg confirms and
the KMNO close leg rejects; the cycle leaves the ledger at the pre-close
position and submits only reduce-only orders. -/
theorem claim_partial_leg_close_keeps_ledger_w :
    (executeTradingCycle envPartial ⟨false, some ⟨10, -100, 1⟩, 0⟩).state.currentPosition
        = some ⟨10, -100, 1⟩ ∧
    ∀ o ∈ (executeTradingCycle envPartial ⟨false, some ⟨10, -100, 1⟩, 0⟩).orders,
      o.reduceOnly = true :=
  claim_partial_leg_close_keeps_ledger envPartial ⟨false, some ⟨10, -100, 1⟩, 0⟩
    ⟨10, -100, 1⟩ [0, 0, 15] [0, 0, 1]
    rfl rfl (by norm_num) (by norm_num) rfl rfl
    (by norm_num [SIGNAL_LAG_PERIODS])
    (by norm_num [signalOf, priceRatio, SIGNAL_LAG_PERIODS])
    (Or.inl ⟨rfl, "close leg failed", rfl⟩)

/-- A `placeOrder` outcome on the spread legs is a confirmation carrying
`Unit` or a rejection carrying the error. -/
theorem except_unit_cases (x : Except String Unit) :
    x = Except.ok () ∨ ∃ e, x = Except.error e := by
  cases x with
  | ok u => cases u; exact Or.inl rfl
  | error e => exact Or.inr ⟨e, rfl⟩

/-- Case analysis of `openPosition` from a Flat ledger with a nonzero
signal: either the step rejects (slippage gate or a failed leg) leaving
the ledger Flat, or both legs confirmed and the ledger holds the new
position. -/
theorem openPosition_none_cases (env : CycleEnv) (sig : Int) (hsig : sig ≠ 0) :
    ((openPosition env none sig).pos = none ∧
      ∃ e, (openPosition env none sig).result = Except.error e) ∨
    ((openPosition env none sig).pos = some (openedPosition sig) ∧
      (openPosition env none sig).result = Except.ok () ∧
      env.driftOpen = Except.ok () ∧ env.kmnoOpen = Except.ok ()) := by
  by_cases h1 : slippageExceeds env.driftOpenLiq.estimatedSlippage maxSlippageDecimal = true
  · left; simp [openPosition, hsig, h1]
  · by_cases h2 : slippageExceeds env.kmnoOpenLiq.estimatedSlippage maxSlippageDecimal = true
    · left; simp [openPosition, hsig, h1, h2]
    · rcases except_unit_cases env.driftOpen with hd | ⟨e, hd⟩
      · rcases except_unit_cases env.kmnoOpen with hk | ⟨e2, hk⟩
        · right
          refine ⟨?_, ?_, hd, hk⟩ <;>
            simp [openPosition, hsig, h1, h2, hd, hk, openedPosition]
        · left; simp [openPosition, hsig, h1, h2, hd, hk]
      · left; simp [openPosition, hsig, h1, h2, hd]

/-- C2: in a direction-flip cycle (nonzero ledger signal, different new
signal), an opening (non-reduce-only) order can appear in the trace only
after both close legs confirmed; the ledger reaches `null` only when
both close legs confirmed; it reaches the new direction's position only
when both open legs confirmed; and when the close confirms but the open
step rejects, the cycle ends with the ledger Flat (`null`). -/
theorem claim_flip_close_then_open (env : CycleEnv) (s : BotState)
    (p : Position) (dc kc : List ℚ) (newSig : Int)
    (hrun : s.isCycleRunning = false)
    (hpos : s.currentPosition = some p)
    (hsig0 : p.signal ≠ 0)
    (hdl : p.drift ≠ 0) (hkl : p.kmno ≠ 0)
    (hdc : env.driftCandles = Except.ok dc) (hkc : env.kmnoCandles = Except.ok kc)
    (hlen : ¬(dc.length < SIGNAL_LAG_PERIODS + 1 ∨ kc.length < SIGNAL_LAG_PERIODS + 1))
    (hnew : newSig = signalOf (dc.getD SIGNAL_LAG_PERIODS 0)
      (kc.getD SIGNAL_LAG_PERIODS 0) priceRatio)
    (hflip : p.signal ≠ newSig) :
    ((∃ o ∈ (executeTradingCycle env s).orders, o.reduceOnly = false) →
      env.driftClose = Except.ok () ∧ env.kmnoClose = Except.ok ()) ∧
    ((executeTradingCycle env s).state.currentPosition = none →
      env.driftClose = Except.ok () ∧ env.kmnoClose = Except.ok ()) ∧
    ((executeTradingCycle env s).state.currentPosition = some (openedPosition newSig) →
      env.driftOpen = Except.ok () ∧ env.kmnoOpen = Except.ok ()) ∧
    (env.driftClose = Except.ok () → env.kmnoClose = Except.ok () →
      (∃ e, (openPosition env none newSig).result = Except.error e) →
      (executeTradingCycle env s).state.currentPosition = none) := by
  obtain ⟨hp2, ho2⟩ := cycle_run_eq env s dc kc hrun hdc hkc hlen
  rw [hpos] at hp2 ho2
  rw [← hnew] at hp2 ho2
  rcases except_unit_cases env.driftClose with hd | ⟨e, hd⟩
  · rcases except_unit_cases env.kmnoClose with hk | ⟨e, hk⟩
    · have hc := closePosition_bothOk env p hdl hkl () () hd hk
      by_cases hs : newSig = 0
      · have ht : tradingStep env (some p) newSig =
            ⟨none, closeOrdersOf p, Except.ok ()⟩ := by
          simp only [tradingStep, if_pos hflip, hc]
          rw [if_neg (fun hcon => hcon hs)]
        rw [ht] at hp2 ho2
        refine ⟨fun _ => ⟨hd, hk⟩, fun _ => ⟨hd, hk⟩, ?_, ?_⟩
        · intro h
          rw [hp2] at h
          cases h
        · intro _ _ _
          rw [hp2]
      · have ht : tradingStep env (some p) newSig =
            ⟨(openPosition env none newSig).pos,
             closeOrdersOf p ++ (openPosition env none newSig).orders,
             (openPosition env none newSig).result⟩ := by
          simp only [tradingStep, if_pos hflip, hc, if_pos hs]
        rw [ht] at hp2 ho2
        rcases openPosition_none_cases env newSig hs with ⟨hpo, e2, hre⟩ | ⟨hpo, hre, hdo2, hko2⟩
        · refine ⟨fun _ => ⟨hd, hk⟩, fun _ => ⟨hd, hk⟩, ?_, ?_⟩
          · intro h
            rw [hp2, hpo] at h
            cases h
          · intro _ _ _
            rw [hp2]
            exact hpo
        · refine ⟨fun _ => ⟨hd, hk⟩, fun _ => ⟨hd, hk⟩, fun _ => ⟨hdo2, hko2⟩, ?_⟩
          intro _ _ hopen
          rcases hopen with ⟨e3, her⟩
          rw [hre] at her
          cases her
    · have hc := closePosition_kmnoFail env p hdl hkl e () hd hk
      have ht : tradingStep env (some p) newSig =
          ⟨some p, closeOrdersOf p, Except.error e⟩ := by
        simp only [tradingStep, if_pos hflip, hc]
      rw [ht] at hp2 ho2
      refine ⟨?_, ?_, ?_, ?_⟩
      · rintro ⟨o, ho, hro⟩
        rw [ho2] at ho
        have := closeOrdersOf_reduceOnly p o ho
        rw [this] at hro
        cases hro
      · intro h
        rw [hp2] at h
        cases h
      · intro h
        rw [hp2] at h
        have hpe : p = openedPosition newSig := by
          injection h
        have : p.signal = newSig := by rw [hpe]; rfl
        exact absurd this hflip
      · intro _ hko _
        rw [hk] at hko
        cases hko
  · have hc := closePosition_driftFail env p hdl hkl e hd
    have ht : tradingStep env (some p) newSig =
        ⟨some p, closeOrdersOf p, Except.error e⟩ := by
      simp only [tradingStep, if_pos hflip, hc]
    rw [ht] at hp2 ho2
    refine ⟨?_, ?_, ?_, ?_⟩
    · rintro ⟨o, ho, hro⟩
      rw [ho2] at ho
      have := closeOrdersOf_reduceOnly p o ho
      rw [this] at hro
      cases hro
    · intro h
      rw [hp2] at h
      cases h
    · intro h
      rw [hp2] at h
      have hpe : p = openedPosition newSig := by
        injection h
      have : p.signal = newSig := by rw [hpe]; rfl
      exact absurd this hflip
    · intro hdo _ _
      rw [hd] at hdo
      cases hdo

/-- A cycle environment in which the candles flip the signal to `-1`,
both close legs confirm, and both books are unfillable so the open step
rejects on the slippage gate before submitting. -/
def envFlip : CycleEnv :=
  ⟨Except.ok [0, 0, 15], Except.ok [0, 0, 1], ⟨false, none⟩, ⟨false, none⟩,
   Except.error "no liquidity", Except.error "no liquidity",
   Except.ok (), Except.ok ()⟩

/-- C2, witnessed: from the long spread with the signal flipping to
`-1`, both close legs confirm while the open step rejects on the
slippage gate; the cycle ends with a Flat ledger, and the close legs'
confirmations are recovered from that observation. -/
theorem claim_flip_close_then_open_w :
    envFlip.driftClose = Except.ok () ∧ envFlip.kmnoClose = Except.ok () :=
  (claim_flip_close_then_open envFlip ⟨false, some ⟨10, -100, 1⟩, 0⟩
    ⟨10, -100, 1⟩ [0, 0, 15] [0, 0, 1] (-1)
    rfl rfl (by norm_num) (by norm_num) (by norm_num) rfl rfl
    (by norm_num [SIGNAL_LAG_PERIODS])
    (by norm_num [signalOf, priceRatio, SIGNAL_LAG_PERIODS])
    (by norm_num)).2.1
    (by norm_num [executeTradingCycle, tradingStep, closePosition, openPosition,
      signalOf, priceRatio, SIGNAL_LAG_PERIODS, slippageExceeds, envFlip])

end SpreadBot
